import Mathlib

/-!
Verification of the stocksTUI market/metadata acquisition layer.

Shallow embedding of `stockstui/data_providers/etf_metadata_provider.py`
(data model, document parser, fetchers, fetcher-chain resolver, metadata
cache gateway) and, modelled from the spec, the price/session cache
freshness rule of `market_provider` (whose source file is not in the
repository snapshot; only its tests are).

Conventions:
- Python `str | None` is `Option String`; Python floats are modelled as
  rationals (no arithmetic on them is relevant beyond exact parsing and
  rounding); Python ints as integers / naturals.
- Python truthiness of optional strings (`if not isin`) is `pyStrTruthy`;
  of optional numbers, `pyNumTruthy`.
- Python dicts are association lists with unique keys (`Dict`), looked up
  with `List.lookup`.
- Regular-expression searches (the `re` standard library) are external to
  the program text; a document text is abstracted by the results the
  source's fixed patterns produce on it (`KidMatches`): for each capturing
  pattern, the captured group (in source order), and for each word-boundary
  search, a Boolean.
-/

/-- A Python float, modelled as the exact decimal `mant / 10 ^ scale`.
All floats the program manipulates are parsed decimal strings or upstream
decimal quantities, and no claim depends on binary-float rounding; the
representation is exact and kernel-computable (no normalization). -/
structure Dec where
  mant : ℤ
  scale : ℕ
  deriving DecidableEq

/-- A Python value as it appears in the metadata dictionaries: `None`,
a string, a float (modelled as an exact decimal), or an int. -/
inductive PyVal where
  | vnone
  | vstr (s : String)
  | vnum (d : Dec)
  | vint (n : ℤ)
  deriving DecidableEq

/-- A Python dict with string keys, as an association list (unique keys in
all dicts the program builds; `List.lookup` takes the first binding). -/
abbrev Dict := List (String × PyVal)

/-- Emptiness of a Python string, via its character list (kept
kernel-reducible so concrete witnesses evaluate by `decide`). -/
def strEmpty (s : String) : Bool := s.data.isEmpty

/-- Python `str.upper()` (ASCII case mapping suffices for the strings the
program handles). -/
def pyUpper (s : String) : String := String.mk (s.data.map Char.toUpper)

/-- Python `str.lower()`. -/
def pyLower (s : String) : String := String.mk (s.data.map Char.toLower)

/-- Python `str.strip()`: drop leading and trailing whitespace. -/
def pyStrip (s : String) : String :=
  String.mk
    (((s.data.dropWhile Char.isWhitespace).reverse.dropWhile
        Char.isWhitespace).reverse)

/-- Python `str.replace(a, b)` for one-character arguments (the only form
the source uses: `replace(",", ".")`). -/
def charReplace (s : String) (a b : Char) : String :=
  String.mk (s.data.map (fun c => if c = a then b else c))

/-- Whether one character list begins with another. -/
def listStartsWith : List Char → List Char → Bool
  | _, [] => true
  | [], _ :: _ => false
  | c :: cs, p :: ps => c = p && listStartsWith cs ps

/-- Python `str.startswith(p)`. -/
def pyStartsWith (s p : String) : Bool := listStartsWith s.data p.data

/-- Truthiness of a Python `str | None` value: `None` and `""` are falsy. -/
def pyStrTruthy : Option String → Bool
  | some s => !(strEmpty s)
  | none => false

/-- Python `a or b` on `str | None` values: `a` if truthy, else `b`. -/
def pyStrOr (a b : Option String) : Option String :=
  if pyStrTruthy a then a else b

/-- Truthiness of a Python `float | None` value: `None` and `0.0` are
falsy (an exact decimal is zero exactly when its mantissa is). -/
def pyNumTruthy : Option Dec → Bool
  | some d => decide (d.mant ≠ 0)
  | none => false

/-- The `_stock_info` attribute attached by `StockInfoFetcher.fetch`
(etf_metadata_provider.py lines 352-360): equity attributes destined for
the serialized dict. -/
structure StockInfo where
  quote_type : String
  sector : Option String
  industry : Option String
  country : Option String
  market_cap : Option String
  pe_ratio : Option String
  dividend_yield : Option String
  deriving DecidableEq

/-- The `ETFMetadata` dataclass (etf_metadata_provider.py lines 34-50),
plus the dynamic `_stock_info` attribute that `StockInfoFetcher.fetch` may
attach (line 352); `_stock_info` is not a dataclass field. -/
structure ETFMetadata where
  isin : String
  ticker : Option String := none
  name : Option String := none
  ter : Option Dec := none
  ongoing_charges : Option Dec := none
  replication : Option String := none
  distribution : Option String := none
  fund_size_mln : Option Dec := none
  fund_currency : Option String := none
  fund_family : Option String := none
  inception_date : Option String := none
  risk_level : Option ℤ := none
  source_url : Option String := none
  _stock_info : Option StockInfo := none
  deriving DecidableEq

/-- Encode an optional string field for `dataclasses.asdict`. -/
def optStrVal : Option String → PyVal
  | some s => .vstr s
  | none => .vnone

/-- Encode an optional float field for `dataclasses.asdict`. -/
def optNumVal : Option Dec → PyVal
  | some d => .vnum d
  | none => .vnone

/-- Encode an optional int field for `dataclasses.asdict`. -/
def optIntVal : Option ℤ → PyVal
  | some n => .vint n
  | none => .vnone

/-- `dataclasses.asdict(self)`: all thirteen dataclass fields, in
declaration order, null-valued fields included (used by `to_dict`,
line 53). -/
def ETFMetadata.asdict (m : ETFMetadata) : Dict :=
  [("isin", .vstr m.isin),
   ("ticker", optStrVal m.ticker),
   ("name", optStrVal m.name),
   ("ter", optNumVal m.ter),
   ("ongoing_charges", optNumVal m.ongoing_charges),
   ("replication", optStrVal m.replication),
   ("distribution", optStrVal m.distribution),
   ("fund_size_mln", optNumVal m.fund_size_mln),
   ("fund_currency", optStrVal m.fund_currency),
   ("fund_family", optStrVal m.fund_family),
   ("inception_date", optStrVal m.inception_date),
   ("risk_level", optIntVal m.risk_level),
   ("source_url", optStrVal m.source_url)]

/-- The dict literal assigned to `metadata._stock_info`
(etf_metadata_provider.py lines 352-360), as dict entries. -/
def StockInfo.toEntries (s : StockInfo) : Dict :=
  [("quote_type", .vstr s.quote_type),
   ("sector", optStrVal s.sector),
   ("industry", optStrVal s.industry),
   ("country", optStrVal s.country),
   ("market_cap", optStrVal s.market_cap),
   ("pe_ratio", optStrVal s.pe_ratio),
   ("dividend_yield", optStrVal s.dividend_yield)]

/-- Python `d.update(new)`: existing keys are overwritten in place, new
keys are appended in order. -/
def dictUpdate (d new : Dict) : Dict :=
  d.map (fun kv => (kv.1, (List.lookup kv.1 new).getD kv.2))
    ++ new.filter (fun kv => (List.lookup kv.1 d).isNone)

/-- `ETFMetadata.to_dict` (lines 52-57): `asdict(self)`, then
`d.update(self._stock_info)` when the attribute is present. -/
def ETFMetadata.to_dict (m : ETFMetadata) : Dict :=
  match m._stock_info with
  | some s => dictUpdate m.asdict s.toEntries
  | none => m.asdict

/-- Decode a looked-up dict value into an optional string field. Python
performs no runtime type check; the dicts the program feeds to `from_dict`
are `to_dict` outputs, where every string field is a string or `None`. -/
def decodeStr : Option PyVal → Option String
  | some (.vstr s) => some s
  | _ => none

/-- Decode a looked-up dict value into an optional float field. -/
def decodeNum : Option PyVal → Option Dec
  | some (.vnum d) => some d
  | _ => none

/-- Decode a looked-up dict value into an optional int field. -/
def decodeInt : Option PyVal → Option ℤ
  | some (.vint n) => some n
  | _ => none

/-- `ETFMetadata.from_dict` (lines 59-61): keep only the keys that are
dataclass fields and build the record; keys that are not fields are
ignored. The dataclass annotates `isin : str` and gives it no default, so
a dict without a string `isin` yields no record (in Python, a missing
`isin` raises `TypeError`); the constructed record carries no
`_stock_info` attribute. -/
def ETFMetadata.from_dict (d : Dict) : Option ETFMetadata :=
  (decodeStr (List.lookup "isin" d)).map (fun s =>
    { isin := s
      ticker := decodeStr (List.lookup "ticker" d)
      name := decodeStr (List.lookup "name" d)
      ter := decodeNum (List.lookup "ter" d)
      ongoing_charges := decodeNum (List.lookup "ongoing_charges" d)
      replication := decodeStr (List.lookup "replication" d)
      distribution := decodeStr (List.lookup "distribution" d)
      fund_size_mln := decodeNum (List.lookup "fund_size_mln" d)
      fund_currency := decodeStr (List.lookup "fund_currency" d)
      fund_family := decodeStr (List.lookup "fund_family" d)
      inception_date := decodeStr (List.lookup "inception_date" d)
      risk_level := decodeInt (List.lookup "risk_level" d)
      source_url := decodeStr (List.lookup "source_url" d)
      _stock_info := none })

/-- The names of the thirteen dataclass fields
(`ETFMetadata.__dataclass_fields__`). -/
def dataclassFields : List String :=
  ["isin", "ticker", "name", "ter", "ongoing_charges", "replication",
   "distribution", "fund_size_mln", "fund_currency", "fund_family",
   "inception_date", "risk_level", "source_url"]

/-- Parse a nonempty all-digit string as a natural number (the behaviour
of Python `int()` / the integer parts of `float()` on the digit strings
the source's capture groups produce; other inputs raise `ValueError`,
modelled as `none`). -/
def digitsToNat? (cs : List Char) : Option ℕ :=
  if cs.isEmpty then none
  else cs.foldl (fun acc c =>
    acc.bind (fun n => if c.isDigit then some (10 * n + (c.toNat - 48)) else none))
    (some 0)

/-- Parse a nonempty all-digit string as a natural number (string form). -/
def strDigits? (s : String) : Option ℕ := digitsToNat? s.data

/-- Python `float()` restricted to the plain decimal strings the source's
capture groups produce after locale normalization: `digits` or
`digits.digits`; anything else is modelled as a `ValueError` (`none`).
The value is exact as a rational. -/
def splitOnChar (sep : Char) : List Char → List (List Char)
  | [] => [[]]
  | c :: rest =>
    let r := splitOnChar sep rest
    if c = sep then [] :: r
    else
      match r with
      | h :: t => (c :: h) :: t
      | [] => [[c]]

/-- Python `float()` on the split pieces: `digits` gives an integer
value, `digits.digits` the exact decimal. -/
def pyFloat (s : String) : Option Dec :=
  match splitOnChar '.' s.data with
  | [a] => (digitsToNat? a).map (fun n => ⟨(n : ℤ), 0⟩)
  | [a, b] =>
    match digitsToNat? a, digitsToNat? b with
    | some n, some f =>
      some ⟨(n : ℤ) * (10 : ℤ) ^ b.length + (f : ℤ), b.length⟩
    | _, _ => none
  | _ => none

/-- A fund-disclosure document text, abstracted by what the source's fixed
patterns produce on it (`VanguardFetcher._parse_kid_text`, lines 164-219):
the fund-name capture (group 1 of the name pattern, or `none` when the
pattern does not match); per expense-ratio pattern of `ter_patterns`
(three in the source) and per risk pattern of `risk_patterns` (two in the
source), in source order, the group-1 capture or `none`; and the outcomes
of the four case-insensitive word-boundary searches. -/
structure KidMatches where
  nameCapture : Option String
  terCaptures : List (Option String)
  riskCaptures : List (Option String)
  hasAccumulating : Bool
  hasDistributing : Bool
  hasPhysical : Bool
  hasSynthetic : Bool
  deriving DecidableEq

/-- The TER pattern loop (lines 184-190): first pattern whose capture
converts with `float` wins and stops the loop; a failed conversion is
passed over and the remaining patterns are still tried. The capture is
locale-normalized (`replace(",", ".")`) before conversion. -/
def terLoop : List (Option String) → Option Dec
  | [] => none
  | none :: rest => terLoop rest
  | some cap :: rest =>
    match pyFloat (charReplace cap ',' '.') with
    | some q => some q
    | none => terLoop rest

/-- The risk pattern loop (lines 197-205): first pattern whose capture
converts with `int` AND lies in `[1, 7]` wins and stops the loop; a
conversion failure or an out-of-range value is passed over and the
remaining patterns are still tried. -/
def riskLoop : List (Option String) → Option ℤ
  | [] => none
  | none :: rest => riskLoop rest
  | some cap :: rest =>
    match strDigits? cap with
    | some n => if 1 ≤ n ∧ n ≤ 7 then some (n : ℤ) else riskLoop rest
    | none => riskLoop rest

/-- `VanguardFetcher._parse_kid_text` (lines 164-219): build a record with
`fund_family = "Vanguard"`, fill name (stripped capture), TER, risk level,
distribution (Accumulating before Distributing) and replication (Physical
before Synthetic), and return it only when a TER was found. -/
def parse_kid_text (m : KidMatches) (isin : String) (ticker : Option String)
    (source_url : String) : Option ETFMetadata :=
  let md : ETFMetadata :=
    { isin := isin
      ticker := ticker
      name := m.nameCapture.map pyStrip
      ter := terLoop m.terCaptures
      replication :=
        if m.hasPhysical then some "Physical"
        else if m.hasSynthetic then some "Synthetic" else none
      distribution :=
        if m.hasAccumulating then some "Accumulating"
        else if m.hasDistributing then some "Distributing" else none
      fund_family := some "Vanguard"
      risk_level := riskLoop m.riskCaptures
      source_url := some source_url }
  if md.ter.isSome then some md else none

/-- `VanguardFetcher.can_handle` (lines 143-144):
`bool(isin and isin.upper().startswith("IE"))`. -/
def vanguard_can_handle (isin ticker : Option String) : Bool :=
  match isin with
  | some s => !(strEmpty s) && pyStartsWith (pyUpper s) "IE"
  | none => false

/-- `VanguardFetcher._build_url` (lines 146-147), with the default
language. -/
def vanguard_build_url (isin : String) : String :=
  "https://fund-docs.vanguard.com/" ++ pyLower isin ++ "_priipskid_en.pdf"

/-- The I/O environment of one `VanguardFetcher.fetch` run: whether the
document download returned bytes with the PDF signature, and, if text
extraction succeeded, the extracted text (abstracted to its pattern-match
results). -/
structure VanguardEnv where
  pdfOk : Bool
  textMatches : Option KidMatches
  deriving DecidableEq

/-- `VanguardFetcher.fetch` (lines 149-162): nothing without a truthy
ISIN; nothing when the download or the text extraction fails; otherwise
parse the document text. -/
def vanguard_fetch (env : VanguardEnv) (isin ticker : Option String) :
    Option ETFMetadata :=
  match isin with
  | none => none
  | some i =>
    if strEmpty i then none
    else if !env.pdfOk then none
    else
      match env.textMatches with
      | none => none
      | some m => parse_kid_text m i ticker (vanguard_build_url i)

/-- The fields of the `yf.Ticker(ticker).info` mapping that the source
reads (defensive `info.get` access: every field may be missing). -/
structure YFInfo where
  quoteType : Option String := none
  netExpenseRatio : Option Dec := none
  longName : Option String := none
  shortName : Option String := none
  fundFamily : Option String := none
  currency : Option String := none
  dividendYield : Option Dec := none
  sector : Option String := none
  industry : Option String := none
  country : Option String := none
  marketCap : Option Dec := none
  trailingPE : Option Dec := none
  trailingAnnualDividendYield : Option Dec := none
  deriving DecidableEq

/-- Round `n / 10 ^ s` half-to-even to an integer, the rounding Python's
`round` and `format` apply; exact on decimals (Python applies it to
binary floats, whose ties can differ, but no claim inspects a rounded
value). -/
def decRoundInt (n : ℤ) (s : ℕ) : ℤ :=
  let d : ℤ := (10 : ℤ) ^ s
  let f := Int.fdiv n d
  let r := Int.fmod n d
  if 2 * r < d then f
  else if d < 2 * r then f + 1
  else if f % 2 = 0 then f else f + 1

/-- Python `round(x, 4)` (line 265). -/
def pyRound4 (x : Dec) : Dec :=
  ⟨decRoundInt (x.mant * 10 ^ 4) x.scale, 4⟩

/-- Two-digit zero-padded rendering of a natural number below 100. -/
def pad2 (n : ℕ) : String :=
  (if n < 10 then "0" else "") ++ toString n

/-- Python `f-string` fixed-point formatting with two decimals (`:.2f`). -/
def fmt2 (x : Dec) : String :=
  let n := decRoundInt (x.mant * 100) x.scale
  (if n < 0 then "-" else "")
    ++ toString (n.natAbs / 100) ++ "." ++ pad2 (n.natAbs % 100)

/-- Walk a reversed digit list, inserting a separator after every third
digit (helper for thousands grouping). -/
def commaGroupsAux : List Char → ℕ → List Char
  | [], _ => []
  | c :: rest, k =>
    if k ≠ 0 ∧ k % 3 = 0 then ',' :: c :: commaGroupsAux rest (k + 1)
    else c :: commaGroupsAux rest (k + 1)

/-- Insert a comma before every group of three digits from the right
(Python `:,` formatting of a nonnegative integer rendering). -/
def commaGroups (s : String) : String :=
  String.mk (commaGroupsAux s.toList.reverse 0).reverse

/-- Python `f-string` formatting `:,.0f`: round to an integer and group
thousands with commas. -/
def fmtThousands (x : Dec) : String :=
  let n := decRoundInt x.mant x.scale
  (if n < 0 then "-" else "") ++ commaGroups (toString n.natAbs)

/-- Whether the decimal value is at least `10 ^ k`. -/
def decGePow10 (x : Dec) (k : ℕ) : Bool :=
  decide ((10 : ℤ) ^ (k + x.scale) ≤ x.mant)

/-- Exact division of a decimal value by `10 ^ k`. -/
def decDivPow10 (x : Dec) (k : ℕ) : Dec := ⟨x.mant, x.scale + k⟩

/-- Exact multiplication of a decimal value by `10 ^ k`. -/
def decMulPow10 (x : Dec) (k : ℕ) : Dec := ⟨x.mant * 10 ^ k, x.scale⟩

/-- The market-capitalization tier formatting of `StockInfoFetcher.fetch`
(lines 320-331): trillions, billions, millions with two decimals, else the
raw value with thousands separators. -/
def formatMarketCap (mc : Dec) : String :=
  if decGePow10 mc 12 then "$" ++ fmt2 (decDivPow10 mc 12) ++ "T"
  else if decGePow10 mc 9 then "$" ++ fmt2 (decDivPow10 mc 9) ++ "B"
  else if decGePow10 mc 6 then "$" ++ fmt2 (decDivPow10 mc 6) ++ "M"
  else "$" ++ fmtThousands mc

/-- `YFinanceFetcher.can_handle` (lines 242-246): any truthy ticker, or a
US-prefixed ISIN. -/
def yfinance_can_handle (isin ticker : Option String) : Bool :=
  if pyStrTruthy ticker then true
  else
    match isin with
    | some s => !(strEmpty s) && pyStartsWith (pyUpper s) "US"
    | none => false

/-- `YFinanceFetcher.fetch` (lines 248-283). The `yf.Ticker(...).info`
call happens inside the catch-all `try`; an upstream exception is the
`none` environment and yields an absent result. With `etf_only`, a
security whose reported quote type is not `ETF` is rejected; the TER is
`round(netExpenseRatio, 4)` when present; the record is returned only
when it has a truthy name. -/
def yfinance_fetch (etf_only : Bool) (info? : Option YFInfo)
    (isin ticker : Option String) : Option ETFMetadata :=
  match ticker with
  | none => none
  | some t =>
    if strEmpty t then none
    else
      match info? with
      | none => none
      | some info =>
        let quote_type := pyUpper (info.quoteType.getD "")
        if etf_only && !(quote_type == "ETF") then none
        else
          let md : ETFMetadata :=
            { isin := (pyStrOr isin (some t)).getD t
              ticker := some t
              name := pyStrOr info.longName info.shortName
              ter := info.netExpenseRatio.map pyRound4
              fund_family := info.fundFamily
              fund_currency := info.currency
              distribution :=
                if pyNumTruthy info.dividendYield then some "Distributing"
                else none
              source_url := some ("https://finance.yahoo.com/quote/" ++ t) }
          if pyStrTruthy md.name then some md else none

/-- `StockInfoFetcher.can_handle` (lines 298-299): `bool(ticker)`. -/
def stockinfo_can_handle (isin ticker : Option String) : Bool :=
  pyStrTruthy ticker

/-- `StockInfoFetcher.fetch` (lines 301-366): reject ETFs (other fetchers
handle those) and records without a truthy name; otherwise build a record
and attach the `_stock_info` dict of formatted equity attributes. A falsy
(`None` or zero) market cap, P/E or dividend yield leaves the formatted
field `None`. -/
def stockinfo_fetch (info? : Option YFInfo) (isin ticker : Option String) :
    Option ETFMetadata :=
  match ticker with
  | none => none
  | some t =>
    if strEmpty t then none
    else
      match info? with
      | none => none
      | some info =>
        let quote_type := pyUpper (info.quoteType.getD "")
        if quote_type == "ETF" then none
        else
          let name := pyStrOr info.longName info.shortName
          if !pyStrTruthy name then none
          else
            let market_cap_str :=
              match info.marketCap with
              | some v => if v.mant = 0 then none else some (formatMarketCap v)
              | none => none
            let pe_str :=
              match info.trailingPE with
              | some v => if v.mant = 0 then none else some (fmt2 v)
              | none => none
            let div_str :=
              match info.trailingAnnualDividendYield with
              | some v =>
                if v.mant = 0 then none
                else some (fmt2 (decMulPow10 v 2) ++ "%")
              | none => none
            some
              { isin := (pyStrOr isin (some t)).getD t
                ticker := some t
                name := name
                fund_currency := info.currency
                source_url := some ("https://finance.yahoo.com/quote/" ++ t)
                _stock_info := some
                  { quote_type := quote_type
                    sector := info.sector
                    industry := info.industry
                    country := info.country
                    market_cap := market_cap_str
                    pe_ratio := pe_str
                    dividend_yield := div_str } }

/-- What one `fetcher.fetch(isin, ticker)` call does at the resolver's
boundary: return a record or `None`, or raise an exception. -/
inductive FetchOutcome where
  | ok (r : Option ETFMetadata)
  | exn
  deriving DecidableEq

/-- A fetcher as the resolver sees it (`BaseFetcher`, lines 69-80): a
`can_handle` predicate and a `fetch` over the identifier pair. -/
structure Fetcher where
  can_handle : Option String → Option String → Bool
  fetch : Option String → Option String → FetchOutcome

/-- The fetch loop of `get_etf_metadata` (lines 439-451), instrumented
with the number of `fetch` invocations: `result` starts as `None`, each
handled fetcher's `fetch` is tried, a truthy result breaks the loop, an
exception is caught (logged) and leaves `result` as it was. -/
def fetchLoop (isin ticker : Option String) :
    List Fetcher → Option ETFMetadata → Option ETFMetadata × ℕ
  | [], acc => (acc, 0)
  | f :: fs, acc =>
    if f.can_handle isin ticker then
      match f.fetch isin ticker with
      | .exn =>
        let p := fetchLoop isin ticker fs acc
        (p.1, p.2 + 1)
      | .ok res =>
        match res with
        | some m => (some m, 1)
        | none =>
          let p := fetchLoop isin ticker fs none
          (p.1, p.2 + 1)
    else fetchLoop isin ticker fs acc

/-- Transcription of the resolver clause of the spec: iterate in order,
skip fetchers whose `can_handle` is false, return the record of the first
fetcher whose `fetch` yields a non-absent record, and treat an exception
like an absent result (try the next fetcher). -/
def resolveSpec (isin ticker : Option String) : List Fetcher → Option ETFMetadata
  | [] => none
  | f :: fs =>
    if f.can_handle isin ticker then
      match f.fetch isin ticker with
      | .ok (some m) => some m
      | .ok none => resolveSpec isin ticker fs
      | .exn => resolveSpec isin ticker fs
    else resolveSpec isin ticker fs

/-- Python `str.upper().strip()` applied by the gateway's normalization. -/
def pyNormalize (s : String) : String := pyStrip (pyUpper s)

/-- Modelled from the spec: the persistent cache store collaborator
(`DbManager`, not part of this core) is a key-value store with
`get(key) -> dict?` and `save(key, secondary_key, dict)` semantics; the
secondary ticker key does not participate in `get(key)`. -/
abbrev Store := List (Option String × Dict)

/-- `db_manager.get_etf_metadata(key)`. -/
def storeGet (st : Store) (k : Option String) : Option Dict :=
  List.lookup k st

/-- `db_manager.save_etf_metadata(key, ticker, dict)`: bind `key`
wholesale to the dict. -/
def storeSave (st : Store) (k : Option String) (ticker : Option String)
    (d : Dict) : Store :=
  (k, d) :: st.filter (fun kv => !(kv.1 == k))

/-- The identifier normalization of `get_etf_metadata` (lines 425-429):
truthy identifiers are uppercased and stripped. -/
def normId (x : Option String) : Option String :=
  if pyStrTruthy x then x.map pyNormalize else x

/-- `cache_key = isin or ticker` (line 431), on normalized identifiers. -/
def cacheKey (isin ticker : Option String) : Option String :=
  pyStrOr (normId isin) (normId ticker)

/-- The gateway's cache-hit test (lines 434-437): with a store present and
no bypass, a stored dict that is truthy (non-empty). -/
def cacheHitDict (db : Option Store) (skip_cache : Bool)
    (key : Option String) : Option Dict :=
  match db, skip_cache with
  | some st, false =>
    match storeGet st key with
    | some d => if d.isEmpty then none else some d
    | none => none
  | _, _ => none

/-- The outcome of one `get_etf_metadata` call: the returned record, the
store afterwards, and how many fetcher `fetch` calls were made. -/
structure GetResult where
  result : Option ETFMetadata
  db : Option Store
  fetchCalls : ℕ
  deriving DecidableEq

/-- `get_etf_metadata` (lines 401-457) over a fetcher list: nothing
without a truthy identifier; normalize; serve a truthy cached dict via
`from_dict`; otherwise run the fetch loop and, when it produced a record
and a store is present, persist `result.to_dict()` under the cache key. -/
def get_etf_metadata (F : List Fetcher) (isin ticker : Option String)
    (db : Option Store) (skip_cache : Bool) : GetResult :=
  if !pyStrTruthy isin && !pyStrTruthy ticker then ⟨none, db, 0⟩
  else
    let isin1 := normId isin
    let ticker1 := normId ticker
    let key := pyStrOr isin1 ticker1
    match cacheHitDict db skip_cache key with
    | some d => ⟨ETFMetadata.from_dict d, db, 0⟩
    | none =>
      let p := fetchLoop isin1 ticker1 F none
      match p.1, db with
      | some m, some st =>
        ⟨some m, some (storeSave st key ticker1 m.to_dict), p.2⟩
      | r, _ => ⟨r, db, p.2⟩

/-- The registered fetcher chain (`FETCHERS`, lines 374-379), most
specific first, each closed over its own I/O environment: the Vanguard
document fetcher, the ETF-only yfinance fetcher, the stock-info fetcher,
and the unrestricted yfinance fallback. None of the four lets an
exception escape its boundary. -/
def FETCHERS (venv : VanguardEnv) (yenv senv fenv : Option YFInfo) :
    List Fetcher :=
  [⟨vanguard_can_handle, fun i t => .ok (vanguard_fetch venv i t)⟩,
   ⟨yfinance_can_handle, fun i t => .ok (yfinance_fetch true yenv i t)⟩,
   ⟨stockinfo_can_handle, fun i t => .ok (stockinfo_fetch senv i t)⟩,
   ⟨yfinance_can_handle, fun i t => .ok (yfinance_fetch false fenv i t)⟩]

/-- The spec's usability invariant: at least one of name (truthy) and
expense ratio is populated. -/
def usableRecord (m : ETFMetadata) : Bool :=
  pyStrTruthy m.name || m.ter.isSome

/-- Modelled from the spec: a `PriceRecord` of the price/session cache
(`market_provider`, whose source file is not in the repository snapshot) —
symbol, currency, exchange, descriptive name, last price, previous close;
a fetch failure carries the "Data Unavailable" sentinel description. -/
structure PriceRecord where
  symbol : String
  currency : Option String := none
  exchange : Option String := none
  description : Option String := none
  price : Option Dec := none
  prev_close : Option Dec := none
  deriving DecidableEq

/-- Modelled from the spec: a price-cache entry wraps a record with an
absolute expiry timestamp (seconds; the tests build
`{'expiry': ..., 'data': ...}` entries). -/
structure PriceCacheEntry where
  expiry : ℤ
  data : PriceRecord
  deriving DecidableEq

/-- Modelled from the spec: the freshness test of the price/session
cache — an entry is acceptable when not yet expired, or whenever the
market is reported closed. -/
def priceCacheFresh (e : PriceCacheEntry) (now : ℤ) (market_open : Bool) :
    Bool :=
  decide (now < e.expiry) || !market_open

/-- Replace (or create) the cache entry of one symbol. -/
def priceCacheSet (cache : List (String × PriceCacheEntry)) (sym : String)
    (e : PriceCacheEntry) : List (String × PriceCacheEntry) :=
  (sym, e) :: cache.filter (fun kv => !(kv.1 == sym))

/-- Modelled from the spec: the per-symbol step of
`get_market_price_data` / `get_prices` — serve the cached record when the
entry passes the freshness test and `force_refresh` is not set; otherwise
perform the upstream fetch (`fetched` is what upstream returns) and
overwrite the entry with a fresh expiry `now + ttl`. The third component
records whether an upstream fetch happened. -/
def getPriceStep (cache : List (String × PriceCacheEntry)) (sym : String)
    (force_refresh : Bool) (now : ℤ) (market_open : Bool)
    (fetched : PriceRecord) (ttl : ℤ) :
    PriceRecord × List (String × PriceCacheEntry) × Bool :=
  match List.lookup sym cache with
  | some e =>
    if !force_refresh && priceCacheFresh e now market_open then
      (e.data, cache, false)
    else (fetched, priceCacheSet cache sym ⟨now + ttl, fetched⟩, true)
  | none => (fetched, priceCacheSet cache sym ⟨now + ttl, fetched⟩, true)


-- Concrete instances used by the witness theorems.

/-- A fetcher that handles everything and returns an absent result. -/
def fetcherAbsent : Fetcher :=
  ⟨fun _ _ => true, fun _ _ => .ok none⟩

/-- A fetcher that handles everything and raises from `fetch`. -/
def fetcherRaise : Fetcher :=
  ⟨fun _ _ => true, fun _ _ => .exn⟩

/-- A concrete usable record. -/
def mWit : ETFMetadata :=
  { isin := "IE00TEST0001", ticker := some "VWCE.DE",
    name := some "Test Fund", ter := some ⟨19, 2⟩ }

/-- A fetcher that handles everything and returns `mWit`. -/
def fetcherWit : Fetcher :=
  ⟨fun _ _ => true, fun _ _ => .ok (some mWit)⟩

/-- Match results of the spec's end-to-end example document: a name line,
a TER of 0,19 % on the second pattern, an out-of-range risk capture before
an in-range one, and the accumulating/physical phrases present. -/
def kidWit : KidMatches :=
  { nameCapture := some " Vanguard FTSE All-World UCITS ETF "
    terCaptures := [none, some "0,19", none]
    riskCaptures := [some "8", some "4"]
    hasAccumulating := true
    hasDistributing := false
    hasPhysical := true
    hasSynthetic := false }

/-- Match results of a document in which no expense-ratio pattern
matches. -/
def kidWitNoTer : KidMatches :=
  { nameCapture := some "Some Fund"
    terCaptures := [none, none, none]
    riskCaptures := [some "4"]
    hasAccumulating := false
    hasDistributing := true
    hasPhysical := false
    hasSynthetic := false }

/-- The download/extraction environment of a successful Vanguard fetch of
the example document. -/
def venvWit : VanguardEnv :=
  { pdfOk := true, textMatches := some kidWit }

/-- The record `parse_kid_text` produces on the example document. -/
def mdKidWit : ETFMetadata :=
  { isin := "IE00BK5BQT80"
    ticker := none
    name := some "Vanguard FTSE All-World UCITS ETF"
    ter := some ⟨19, 2⟩
    replication := some "Physical"
    distribution := some "Accumulating"
    fund_family := some "Vanguard"
    risk_level := some 4
    source_url := some "https://fund-docs.vanguard.com/ie00bk5bqt80_priipskid_en.pdf" }

/-- An upstream `info` mapping for an equity security. -/
def yinfoWit : YFInfo :=
  { quoteType := some "EQUITY"
    longName := some "Apple Inc."
    currency := some "USD"
    sector := some "Technology"
    industry := some "Consumer Electronics"
    country := some "United States"
    marketCap := some ⟨3 * 10 ^ 12, 0⟩
    trailingPE := some ⟨30, 0⟩
    trailingAnnualDividendYield := some ⟨1, 2⟩ }

/-- A concrete serialization input with only an `isin`. -/
def dWit : Dict := [("isin", PyVal.vstr "IE00BK5BQT80")]

/-- Entries with a key that is not an `ETFMetadata` field. -/
def extraWit : Dict := [("unknown_field", PyVal.vstr "should be ignored")]

/-- A concrete cached price entry expiring at time 300. -/
def priceEntryWit : PriceCacheEntry :=
  { expiry := 300, data := { symbol := "GOOG", price := some ⟨2800, 0⟩ } }

/-- A one-entry price cache holding `priceEntryWit` under "GOOG". -/
def priceCacheWit : List (String × PriceCacheEntry) :=
  [("GOOG", priceEntryWit)]

/-- An upstream record a refetch would produce. -/
def priceFetchedWit : PriceRecord :=
  { symbol := "GOOG", price := some ⟨2805, 0⟩ }

/-- The record `stockinfo_fetch` produces from `yinfoWit` for ticker
"AAPL". -/
def mdStockWit : ETFMetadata :=
  { isin := "AAPL"
    ticker := some "AAPL"
    name := some "Apple Inc."
    fund_currency := some "USD"
    source_url := some "https://finance.yahoo.com/quote/AAPL"
    _stock_info := some
      { quote_type := "EQUITY"
        sector := some "Technology"
        industry := some "Consumer Electronics"
        country := some "United States"
        market_cap := some "$3.00T"
        pe_ratio := some "30.00"
        dividend_yield := some "1.00%" } }

/-- Transcription of the claim "to_dict contains exactly the non-null
fields" (its "null fields are not persisted" half): no key of the
serialized dict is bound to null. -/
def onlyNonNullPersisted (m : ETFMetadata) : Prop :=
  ∀ k v, List.lookup k m.to_dict = some v → v ≠ PyVal.vnone

-- ===== Helper lemmas on serialization =====

theorem decodeStr_vstr (s : String) :
    decodeStr (some (PyVal.vstr s)) = some s := rfl

theorem decodeStr_optStrVal (x : Option String) :
    decodeStr (some (optStrVal x)) = x := by
  cases x <;> rfl

theorem decodeNum_optNumVal (x : Option Dec) :
    decodeNum (some (optNumVal x)) = x := by
  cases x <;> rfl

theorem decodeInt_optIntVal (x : Option ℤ) :
    decodeInt (some (optIntVal x)) = x := by
  cases x <;> rfl

theorem lookup_map_snd (d : Dict) (g : String → PyVal → PyVal) (k : String) :
    List.lookup k (d.map (fun kv => (kv.1, g kv.1 kv.2)))
      = (List.lookup k d).map (g k) := by
  induction d with
  | nil => rfl
  | cons hd tl ih =>
    by_cases h : k = hd.1
    · subst h
      simp [List.lookup]
    · have hb : (k == hd.1) = false := by
        simp [h]
      simp [List.lookup, hb, ih]

theorem lookup_filter_of_none (new d : Dict) (k : String)
    (hd : List.lookup k d = none) :
    List.lookup k (new.filter (fun kv => (List.lookup kv.1 d).isNone))
      = List.lookup k new := by
  induction new with
  | nil => rfl
  | cons hd2 tl ih =>
    by_cases h : k = hd2.1
    · subst h
      have : (List.lookup hd2.1 d).isNone = true := by
        simp [hd]
      simp [List.filter, this, List.lookup]
    · have hb : (k == hd2.1) = false := by
        simp [h]
      by_cases hp : (List.lookup hd2.1 d).isNone = true
      · simp [List.filter, hp, List.lookup, hb, ih]
      · simp [List.filter, hp, List.lookup, hb, ih]

theorem lookup_append_dict (a b : Dict) (k : String) :
    List.lookup k (a ++ b) = (List.lookup k a).orElse (fun _ => List.lookup k b) := by
  induction a with
  | nil => rfl
  | cons hd tl ih =>
    by_cases h : k = hd.1
    · subst h
      simp [List.lookup]
    · have hb : (k == hd.1) = false := by
        simp [h]
      simp [List.lookup, hb, ih]

/-- Looking a key up in `dictUpdate d new` gives `new`'s value when `new`
binds the key, else `d`'s value. -/
theorem lookup_dictUpdate (d new : Dict) (k : String) :
    List.lookup k (dictUpdate d new)
      = (List.lookup k new).orElse (fun _ => List.lookup k d) := by
  unfold dictUpdate
  rw [lookup_append_dict, lookup_map_snd d (fun a v => (List.lookup a new).getD v) k]
  cases hd : List.lookup k d with
  | none =>
    rw [lookup_filter_of_none new d k hd]
    cases hn : List.lookup k new <;> simp [Option.orElse]
  | some v =>
    cases hn : List.lookup k new <;> simp [Option.orElse, hn]

theorem lookup_asdict_isin (m : ETFMetadata) :
    List.lookup "isin" m.asdict = some (PyVal.vstr m.isin) := rfl

theorem lookup_asdict_ticker (m : ETFMetadata) :
    List.lookup "ticker" m.asdict = some (optStrVal m.ticker) := rfl

theorem lookup_asdict_name (m : ETFMetadata) :
    List.lookup "name" m.asdict = some (optStrVal m.name) := rfl

theorem lookup_asdict_ter (m : ETFMetadata) :
    List.lookup "ter" m.asdict = some (optNumVal m.ter) := rfl

theorem lookup_asdict_ongoing (m : ETFMetadata) :
    List.lookup "ongoing_charges" m.asdict = some (optNumVal m.ongoing_charges) := rfl

theorem lookup_asdict_replication (m : ETFMetadata) :
    List.lookup "replication" m.asdict = some (optStrVal m.replication) := rfl

theorem lookup_asdict_distribution (m : ETFMetadata) :
    List.lookup "distribution" m.asdict = some (optStrVal m.distribution) := rfl

theorem lookup_asdict_fund_size (m : ETFMetadata) :
    List.lookup "fund_size_mln" m.asdict = some (optNumVal m.fund_size_mln) := rfl

theorem lookup_asdict_fund_currency (m : ETFMetadata) :
    List.lookup "fund_currency" m.asdict = some (optStrVal m.fund_currency) := rfl

theorem lookup_asdict_fund_family (m : ETFMetadata) :
    List.lookup "fund_family" m.asdict = some (optStrVal m.fund_family) := rfl

theorem lookup_asdict_inception (m : ETFMetadata) :
    List.lookup "inception_date" m.asdict = some (optStrVal m.inception_date) := rfl

theorem lookup_asdict_risk (m : ETFMetadata) :
    List.lookup "risk_level" m.asdict = some (optIntVal m.risk_level) := rfl

theorem lookup_asdict_source_url (m : ETFMetadata) :
    List.lookup "source_url" m.asdict = some (optStrVal m.source_url) := rfl

/-- Deserializing a bare `asdict` reproduces every dataclass field. -/
theorem from_dict_asdict (m : ETFMetadata) :
    ETFMetadata.from_dict m.asdict = some { m with _stock_info := none } := by
  simp only [ETFMetadata.from_dict, lookup_asdict_isin, lookup_asdict_ticker,
    lookup_asdict_name, lookup_asdict_ter, lookup_asdict_ongoing,
    lookup_asdict_replication, lookup_asdict_distribution, lookup_asdict_fund_size,
    lookup_asdict_fund_currency, lookup_asdict_fund_family, lookup_asdict_inception,
    lookup_asdict_risk, lookup_asdict_source_url, decodeStr_vstr,
    decodeStr_optStrVal, decodeNum_optNumVal, decodeInt_optIntVal,
    Option.map_some']

theorem lookup_eq_none_of_keys (l : Dict) (k : String)
    (h : ∀ kv ∈ l, kv.1 ≠ k) : List.lookup k l = none := by
  induction l with
  | nil => rfl
  | cons hd tl ih =>
    obtain ⟨a, b⟩ := hd
    have hne : (k == a) = false := by
      have h1 : a ≠ k := h (a, b) (by simp)
      simp [beq_iff_eq]
      exact fun e => h1 e.symm
    simp only [List.lookup, hne]
    exact ih (fun kv hkv => h kv (by simp [hkv]))

/-- `from_dict` reads only the dataclass-field keys of its input. -/
theorem from_dict_congr (d d' : Dict)
    (h : ∀ k ∈ dataclassFields, List.lookup k d = List.lookup k d') :
    ETFMetadata.from_dict d = ETFMetadata.from_dict d' := by
  simp only [ETFMetadata.from_dict,
    h "isin" (by decide), h "ticker" (by decide), h "name" (by decide),
    h "ter" (by decide), h "ongoing_charges" (by decide),
    h "replication" (by decide), h "distribution" (by decide),
    h "fund_size_mln" (by decide), h "fund_currency" (by decide),
    h "fund_family" (by decide), h "inception_date" (by decide),
    h "risk_level" (by decide), h "source_url" (by decide)]

/-- Keys that are not dataclass fields never bind a dataclass-field key. -/
theorem lookup_field_none_of_junk (extra : Dict)
    (hx : ∀ kv ∈ extra, kv.1 ∉ dataclassFields) (k : String)
    (hk : k ∈ dataclassFields) : List.lookup k extra = none :=
  lookup_eq_none_of_keys extra k (fun kv hkv e => hx kv hkv (e ▸ hk))

/-- Updating a dict with entries whose keys are not dataclass fields does
not change the result of `from_dict`: unrecognized keys are ignored. -/
theorem from_dict_ignores_junk (d extra : Dict)
    (hx : ∀ kv ∈ extra, kv.1 ∉ dataclassFields) :
    ETFMetadata.from_dict (dictUpdate d extra) = ETFMetadata.from_dict d := by
  refine from_dict_congr _ _ (fun k hk => ?_)
  rw [lookup_dictUpdate, lookup_field_none_of_junk extra hx k hk]
  rfl

/-- The equity-attribute keys attached by `StockInfoFetcher` are not
dataclass fields. -/
theorem stock_entries_junk (s : StockInfo) :
    ∀ kv ∈ s.toEntries, kv.1 ∉ dataclassFields := by
  have hall : ∀ k ∈ (["quote_type", "sector", "industry", "country",
      "market_cap", "pe_ratio", "dividend_yield"] : List String),
      k ∉ dataclassFields := by decide
  intro kv hkv
  have hm : kv.1 ∈ List.map Prod.fst s.toEntries :=
    List.mem_map_of_mem Prod.fst hkv
  have he : List.map Prod.fst s.toEntries
      = ["quote_type", "sector", "industry", "country", "market_cap",
         "pe_ratio", "dividend_yield"] := rfl
  exact hall kv.1 (he ▸ hm)

/-- Serialization round-trip: deserializing `to_dict m` reproduces every
dataclass field of `m` exactly (null fields included) and drops any
attached `_stock_info`. -/
theorem from_dict_to_dict (m : ETFMetadata) :
    ETFMetadata.from_dict m.to_dict = some { m with _stock_info := none } := by
  cases hs : m._stock_info with
  | none =>
    unfold ETFMetadata.to_dict
    rw [hs]
    exact from_dict_asdict m
  | some s =>
    unfold ETFMetadata.to_dict
    rw [hs, from_dict_ignores_junk m.asdict s.toEntries (stock_entries_junk s)]
    exact from_dict_asdict m

/-- A serialized record dict is never the empty dict (Python truthiness of
the cached dict in the gateway's hit test). -/
theorem to_dict_ne_nil (m : ETFMetadata) : m.to_dict ≠ [] := by
  cases hs : m._stock_info <;>
    simp [ETFMetadata.to_dict, hs, dictUpdate, ETFMetadata.asdict]

/-- Without equity attributes, the serialized dict carries exactly the
thirteen dataclass-field keys, in declaration order. -/
theorem to_dict_keys (m : ETFMetadata) (hs : m._stock_info = none) :
    m.to_dict.map Prod.fst = dataclassFields := by
  simp [ETFMetadata.to_dict, hs, ETFMetadata.asdict, dataclassFields]


-- ===== Helper lemmas on the document parser =====

theorem parse_kid_none_iff (m : KidMatches) (i : String) (t : Option String)
    (u : String) :
    parse_kid_text m i t u = none ↔ terLoop m.terCaptures = none := by
  unfold parse_kid_text
  cases h : terLoop m.terCaptures <;> simp [h]

theorem parse_kid_fields (m : KidMatches) (i : String) (t : Option String)
    (u : String) (md : ETFMetadata) (h : parse_kid_text m i t u = some md) :
    md.isin = i ∧ md.ticker = t ∧ md.name = m.nameCapture.map pyStrip
    ∧ md.ter = terLoop m.terCaptures
    ∧ md.risk_level = riskLoop m.riskCaptures
    ∧ md.distribution = (if m.hasAccumulating then some "Accumulating"
        else if m.hasDistributing then some "Distributing" else none)
    ∧ md.replication = (if m.hasPhysical then some "Physical"
        else if m.hasSynthetic then some "Synthetic" else none)
    ∧ md.fund_family = some "Vanguard" ∧ md.source_url = some u := by
  unfold parse_kid_text at h
  by_cases hts : (terLoop m.terCaptures).isSome
  · simp only [hts, if_true, Option.some.injEq] at h
    subst h
    simp
  · simp only [hts, if_false, Bool.false_eq_true, reduceIte] at h
    exact Option.noConfusion h

theorem terLoop_all_none (caps : List (Option String))
    (h : ∀ c ∈ caps, c = none) : terLoop caps = none := by
  induction caps with
  | nil => rfl
  | cons c rest ih =>
    have hc := h c (by simp)
    rw [hc]
    exact ih (fun c2 hc2 => h c2 (by simp [hc2]))

theorem terLoop_isSome (caps : List (Option String))
    (hp : ∀ c ∈ caps, ∀ s, c = some s →
      (pyFloat (charReplace s ',' '.')).isSome = true)
    (hx : ¬ ∀ c ∈ caps, c = none) : (terLoop caps).isSome = true := by
  induction caps with
  | nil => exact absurd (fun c hc => absurd hc (List.not_mem_nil c)) hx
  | cons c rest ih =>
    cases c with
    | none =>
      refine ih (fun c2 hc2 s hs => hp c2 (by simp [hc2]) s hs) (fun hall => hx ?_)
      intro c2 hc2
      rcases List.mem_cons.mp hc2 with h2 | h2
      · exact h2
      · exact hall c2 h2
    | some s =>
      have hs := hp (some s) (by simp) s rfl
      obtain ⟨q, hq⟩ := Option.isSome_iff_exists.mp hs
      simp [terLoop, hq]

theorem riskLoop_range (caps : List (Option String)) (r : ℤ)
    (h : riskLoop caps = some r) : 1 ≤ r ∧ r ≤ 7 := by
  induction caps with
  | nil => simp [riskLoop] at h
  | cons c rest ih =>
    cases c with
    | none => exact ih h
    | some cap =>
      cases hd : strDigits? cap with
      | none =>
        have he : riskLoop (some cap :: rest) = riskLoop rest := by
          simp [riskLoop, hd]
        rw [he] at h
        exact ih h
      | some n =>
        have he : riskLoop (some cap :: rest)
            = if 1 ≤ n ∧ n ≤ 7 then some (n : ℤ) else riskLoop rest := by
          simp [riskLoop, hd]
        rw [he] at h
        by_cases hr : 1 ≤ n ∧ n ≤ 7
        · rw [if_pos hr] at h
          have hnr : (n : ℤ) = r := Option.some.inj h
          omega
        · rw [if_neg hr] at h
          exact ih h

theorem riskLoop_skip_out_of_range (cap : String) (rest : List (Option String))
    (h : ∀ n, strDigits? cap = some n → ¬(1 ≤ n ∧ n ≤ 7)) :
    riskLoop (some cap :: rest) = riskLoop rest := by
  cases hd : strDigits? cap with
  | none => simp [riskLoop, hd]
  | some n => simp [riskLoop, hd, h n hd]

theorem riskLoop_none_of_no_match (caps : List (Option String))
    (h : ∀ c ∈ caps, ∀ s, c = some s →
      ∀ n, strDigits? s = some n → ¬(1 ≤ n ∧ n ≤ 7)) :
    riskLoop caps = none := by
  induction caps with
  | nil => rfl
  | cons c rest ih =>
    have ihr := ih (fun c2 hc2 s hs => h c2 (by simp [hc2]) s hs)
    cases c with
    | none => exact ihr
    | some cap =>
      rw [riskLoop_skip_out_of_range cap rest (h (some cap) (by simp) cap rfl)]
      exact ihr

-- ===== Claim C7 =====

/-- Claim C7: the document parser returns an absent result exactly when no
expense-ratio pattern matched the text (under the guarantee, inherent in
the source's capture groups of shape digits-separator-digits, that every
produced capture converts with `float` after locale normalization); and
whenever it returns a record, that record's `ter` field is populated. -/
theorem c7_ter_is_anchor (m : KidMatches) (isin : String)
    (ticker : Option String) (url : String) :
    (∀ md, parse_kid_text m isin ticker url = some md → md.ter.isSome = true)
    ∧ ((∀ c ∈ m.terCaptures, ∀ s, c = some s →
          (pyFloat (charReplace s ',' '.')).isSome = true) →
        (parse_kid_text m isin ticker url = none
          ↔ ∀ c ∈ m.terCaptures, c = none)) := by
  constructor
  · intro md hmd
    have hf := parse_kid_fields m isin ticker url md hmd
    rw [hf.2.2.2.1]
    by_contra hn
    have hnone : terLoop m.terCaptures = none := by
      cases ht : terLoop m.terCaptures with
      | none => rfl
      | some q =>
        rw [ht] at hn
        exact absurd rfl hn
    rw [(parse_kid_none_iff m isin ticker url).mpr hnone] at hmd
    exact Option.noConfusion hmd
  · intro hp
    rw [parse_kid_none_iff m isin ticker url]
    constructor
    · intro hnone
      by_contra hx
      have := terLoop_isSome m.terCaptures hp hx
      rw [hnone] at this
      exact Bool.noConfusion this
    · exact terLoop_all_none m.terCaptures

/-- Witness for C7: on the example document the returned record's TER is
populated, and on a document where no expense-ratio pattern matches the
parser returns an absent result. -/
theorem c7_witness :
    mdKidWit.ter.isSome = true
    ∧ (parse_kid_text kidWitNoTer "IE00X" none "u" = none
        ↔ ∀ c ∈ kidWitNoTer.terCaptures, c = none) :=
  ⟨(c7_ter_is_anchor kidWit "IE00BK5BQT80" none
      "https://fund-docs.vanguard.com/ie00bk5bqt80_priipskid_en.pdf").1
      mdKidWit (by decide),
   (c7_ter_is_anchor kidWitNoTer "IE00X" none "u").2 (by decide)⟩

-- ===== Claim C8 =====

/-- Claim C8: the parser sets `risk_level` only to integers in `[1, 7]`;
a risk capture whose digit is out of range is discarded silently and the
remaining risk patterns are still tried; when no in-range match exists the
risk level stays unset; and the risk captures never decide whether the
parse as a whole fails. -/
theorem c8_risk_range_validated (m : KidMatches) (isin : String)
    (ticker : Option String) (url : String) :
    (∀ md, parse_kid_text m isin ticker url = some md →
        md.risk_level = riskLoop m.riskCaptures
        ∧ ∀ r, md.risk_level = some r → 1 ≤ r ∧ r ≤ 7)
    ∧ (∀ (cap : String) (rest : List (Option String)),
        (∀ n, strDigits? cap = some n → ¬(1 ≤ n ∧ n ≤ 7)) →
        riskLoop (some cap :: rest) = riskLoop rest)
    ∧ (∀ caps : List (Option String),
        (∀ c ∈ caps, ∀ s, c = some s →
          ∀ n, strDigits? s = some n → ¬(1 ≤ n ∧ n ≤ 7)) →
        riskLoop caps = none)
    ∧ (∀ caps : List (Option String),
        (parse_kid_text { m with riskCaptures := caps } isin ticker url).isSome
          = (parse_kid_text m isin ticker url).isSome) := by
  refine ⟨?_, riskLoop_skip_out_of_range, riskLoop_none_of_no_match, ?_⟩
  · intro md hmd
    have hf := parse_kid_fields m isin ticker url md hmd
    refine ⟨hf.2.2.2.2.1, fun r hr => ?_⟩
    rw [hf.2.2.2.2.1] at hr
    exact riskLoop_range m.riskCaptures r hr
  · intro caps
    unfold parse_kid_text
    cases h : terLoop m.terCaptures <;> simp [h]

/-- Witness for C8: the "8 out of 7" capture is discarded and the
remaining pattern still yields 4; with only out-of-range captures the risk
level stays unset; on the example document the recorded risk level is in
range. -/
theorem c8_witness :
    riskLoop [some "8", some "4"] = riskLoop [some "4"]
    ∧ riskLoop [some "8"] = none
    ∧ (mdKidWit.risk_level = riskLoop kidWit.riskCaptures
        ∧ ∀ r, mdKidWit.risk_level = some r → 1 ≤ r ∧ r ≤ 7) :=
  ⟨(c8_risk_range_validated kidWit "IE00BK5BQT80" none "u").2.1 "8" [some "4"]
      (by decide),
   (c8_risk_range_validated kidWit "IE00BK5BQT80" none "u").2.2.1 [some "8"]
      (by decide),
   (c8_risk_range_validated kidWit "IE00BK5BQT80" none
      "https://fund-docs.vanguard.com/ie00bk5bqt80_priipskid_en.pdf").1
      mdKidWit (by decide)⟩

-- ===== Claim C9 =====

/-- Claim C9: distribution and replication are two independent
first-match-wins checks: the distribution of a returned record depends
only on the accumulating/distributing flags (Accumulating first), the
replication only on the physical/synthetic flags (Physical first); when
neither phrase of a pair is present the field stays unset; when both are
present the check that runs first wins. -/
theorem c9_phrase_pairs (m : KidMatches) (isin : String)
    (ticker : Option String) (url : String) (md : ETFMetadata)
    (h : parse_kid_text m isin ticker url = some md) :
    (md.distribution = (if m.hasAccumulating then some "Accumulating"
        else if m.hasDistributing then some "Distributing" else none))
    ∧ (md.replication = (if m.hasPhysical then some "Physical"
        else if m.hasSynthetic then some "Synthetic" else none))
    ∧ (m.hasAccumulating = false → m.hasDistributing = false →
        md.distribution = none)
    ∧ (m.hasAccumulating = true → md.distribution = some "Accumulating")
    ∧ (m.hasAccumulating = false → m.hasDistributing = true →
        md.distribution = some "Distributing")
    ∧ (m.hasPhysical = false → m.hasSynthetic = false →
        md.replication = none)
    ∧ (m.hasPhysical = true → md.replication = some "Physical")
    ∧ (m.hasPhysical = false → m.hasSynthetic = true →
        md.replication = some "Synthetic") := by
  have hf := parse_kid_fields m isin ticker url md h
  have hd := hf.2.2.2.2.2.1
  have hr := hf.2.2.2.2.2.2.1
  refine ⟨hd, hr, ?_, ?_, ?_, ?_, ?_, ?_⟩ <;> intro h1 <;>
    first
      | (intro h2; simp [hd, hr, h1, h2])
      | simp [hd, hr, h1]

/-- Witness for C9: the example document contains both phrases of both
pairs set to first-wins inputs (accumulating and physical present), and
the returned record records "Accumulating" and "Physical". -/
theorem c9_witness :
    mdKidWit.distribution
        = (if kidWit.hasAccumulating then some "Accumulating"
           else if kidWit.hasDistributing then some "Distributing" else none)
    ∧ mdKidWit.replication
        = (if kidWit.hasPhysical then some "Physical"
           else if kidWit.hasSynthetic then some "Synthetic" else none) := by
  have h := c9_phrase_pairs kidWit "IE00BK5BQT80" none
    "https://fund-docs.vanguard.com/ie00bk5bqt80_priipskid_en.pdf"
    mdKidWit (by decide)
  exact ⟨h.1, h.2.1⟩

-- ===== Claim C1 =====

/-- Claim C1: for every identifier pair and every ordered fetcher list,
the fetch loop of `get_etf_metadata` computes exactly the spec's
resolution: fetchers are tried in list order, fetchers whose `can_handle`
is false are skipped, the first fetcher whose `fetch` yields a non-absent
record supplies the result, and an exception from a `fetch` is treated as
"try the next fetcher" rather than aborting the resolution
(`resolveSpec` is the transcription of the spec sentence, `fetchLoop` the
embedding of the source loop). -/
theorem c1_loop_is_first_match_resolution (isin ticker : Option String)
    (fs : List Fetcher) :
    (fetchLoop isin ticker fs none).1 = resolveSpec isin ticker fs := by
  induction fs with
  | nil => rfl
  | cons f fs ih =>
    by_cases h : f.can_handle isin ticker
    · cases hf : f.fetch isin ticker with
      | exn => simp [fetchLoop, resolveSpec, h, hf, ih]
      | ok res =>
        cases res with
        | some m => simp [fetchLoop, resolveSpec, h, hf]
        | none => simp [fetchLoop, resolveSpec, h, hf, ih]
    · simp [fetchLoop, resolveSpec, h, ih]

-- ===== Claim C4 =====

theorem parse_kid_usable (m : KidMatches) (i : String) (t : Option String)
    (u : String) (md : ETFMetadata) (h : parse_kid_text m i t u = some md) :
    usableRecord md = true := by
  have hf := parse_kid_fields m i t u md h
  have hter : md.ter = terLoop m.terCaptures := hf.2.2.2.1
  cases ht : terLoop m.terCaptures with
  | none =>
    rw [(parse_kid_none_iff m i t u).mpr ht] at h
    exact Option.noConfusion h
  | some q =>
    unfold usableRecord
    rw [hter, ht]
    simp

theorem vanguard_fetch_usable (env : VanguardEnv) (isin ticker : Option String)
    (md : ETFMetadata) (h : vanguard_fetch env isin ticker = some md) :
    usableRecord md = true := by
  cases isin with
  | none => exact Option.noConfusion h
  | some i =>
    simp only [vanguard_fetch] at h
    split at h
    · exact Option.noConfusion h
    · split at h
      · exact Option.noConfusion h
      · split at h
        · exact Option.noConfusion h
        · rename_i m htm
          exact parse_kid_usable m i ticker (vanguard_build_url i) md h

theorem yfinance_fetch_usable (etf_only : Bool) (info? : Option YFInfo)
    (isin ticker : Option String) (md : ETFMetadata)
    (h : yfinance_fetch etf_only info? isin ticker = some md) :
    usableRecord md = true := by
  cases ticker with
  | none => exact Option.noConfusion h
  | some t =>
    cases info? with
    | none =>
      simp only [yfinance_fetch] at h
      split at h
      · exact Option.noConfusion h
      · exact Option.noConfusion h
    | some info =>
      simp only [yfinance_fetch] at h
      split at h
      · exact Option.noConfusion h
      · split at h
        · exact Option.noConfusion h
        · split at h
          · rename_i hname
            obtain rfl := Option.some.inj h
            simp [usableRecord, hname]
          · exact Option.noConfusion h

theorem stockinfo_fetch_usable (info? : Option YFInfo)
    (isin ticker : Option String) (md : ETFMetadata)
    (h : stockinfo_fetch info? isin ticker = some md) :
    usableRecord md = true := by
  cases ticker with
  | none => exact Option.noConfusion h
  | some t =>
    cases info? with
    | none =>
      simp only [stockinfo_fetch] at h
      split at h
      · exact Option.noConfusion h
      · exact Option.noConfusion h
    | some info =>
      simp only [stockinfo_fetch] at h
      split at h
      · exact Option.noConfusion h
      · split at h
        · exact Option.noConfusion h
        · split at h
          · exact Option.noConfusion h
          · rename_i hname
            obtain rfl := Option.some.inj h
            have hn : pyStrTruthy (pyStrOr info.longName info.shortName) = true := by
              revert hname
              cases pyStrTruthy (pyStrOr info.longName info.shortName) <;> simp
            simp [usableRecord, hn]

theorem fetchLoop_usable (isin ticker : Option String) (fs : List Fetcher)
    (acc : Option ETFMetadata)
    (hf : ∀ f ∈ fs, ∀ md, f.fetch isin ticker = .ok (some md) →
      usableRecord md = true)
    (ha : ∀ md, acc = some md → usableRecord md = true) :
    ∀ md, (fetchLoop isin ticker fs acc).1 = some md → usableRecord md = true := by
  induction fs generalizing acc with
  | nil => exact fun md h => ha md h
  | cons f fs ih =>
    intro md h
    have hf0 := hf f (by simp)
    have hfs : ∀ g ∈ fs, ∀ md2, g.fetch isin ticker = .ok (some md2) →
        usableRecord md2 = true := fun g hg => hf g (by simp [hg])
    by_cases hc : f.can_handle isin ticker
    · cases hout : f.fetch isin ticker with
      | exn =>
        rw [show (fetchLoop isin ticker (f :: fs) acc).1
            = (fetchLoop isin ticker fs acc).1 by simp [fetchLoop, hc, hout]] at h
        exact ih acc hfs ha md h
      | ok res =>
        cases res with
        | some m =>
          rw [show (fetchLoop isin ticker (f :: fs) acc).1 = some m by
            simp [fetchLoop, hc, hout]] at h
          have := hf0 m hout
          rwa [← Option.some.inj h]
        | none =>
          rw [show (fetchLoop isin ticker (f :: fs) acc).1
              = (fetchLoop isin ticker fs none).1 by simp [fetchLoop, hc, hout]] at h
          exact ih none hfs (fun md2 h2 => Option.noConfusion h2) md h
    · rw [show (fetchLoop isin ticker (f :: fs) acc).1
          = (fetchLoop isin ticker fs acc).1 by simp [fetchLoop, hc]] at h
      exact ih acc hfs ha md h

/-- Claim C4: every record returned by any of the four registered
fetchers' `fetch` — and hence any record the fetch loop of the gateway
resolves to and persists — has at least one of name and expense ratio
populated (`usableRecord`); a record with both absent is never produced. -/
theorem c4_fetchers_return_usable (venv : VanguardEnv)
    (yenv senv fenv : Option YFInfo) (isin ticker : Option String) :
    (∀ md, vanguard_fetch venv isin ticker = some md → usableRecord md = true)
    ∧ (∀ b info? md, yfinance_fetch b info? isin ticker = some md →
        usableRecord md = true)
    ∧ (∀ info? md, stockinfo_fetch info? isin ticker = some md →
        usableRecord md = true)
    ∧ (∀ md, (fetchLoop isin ticker (FETCHERS venv yenv senv fenv) none).1
        = some md → usableRecord md = true) := by
  refine ⟨fun md => vanguard_fetch_usable venv isin ticker md,
    fun b info? md => yfinance_fetch_usable b info? isin ticker md,
    fun info? md => stockinfo_fetch_usable info? isin ticker md, ?_⟩
  refine fetchLoop_usable isin ticker _ none ?_
    (fun md h => Option.noConfusion h)
  intro f hfm md hfo
  simp only [FETCHERS, List.mem_cons, List.not_mem_nil, or_false] at hfm
  rcases hfm with rfl | rfl | rfl | rfl
  · exact vanguard_fetch_usable venv isin ticker md (FetchOutcome.ok.inj hfo)
  · exact yfinance_fetch_usable true yenv isin ticker md (FetchOutcome.ok.inj hfo)
  · exact stockinfo_fetch_usable senv isin ticker md (FetchOutcome.ok.inj hfo)
  · exact yfinance_fetch_usable false fenv isin ticker md (FetchOutcome.ok.inj hfo)

/-- Witness for C4: the example Vanguard document yields a usable record
through the registered chain. -/
theorem c4_witness : usableRecord mdKidWit = true :=
  (c4_fetchers_return_usable venvWit none none none
    (some "IE00BK5BQT80") none).2.2.2 mdKidWit (by decide)

-- ===== Claim C10 =====

theorem stockinfo_fetch_stock_info (info? : Option YFInfo)
    (isin ticker : Option String) (md : ETFMetadata)
    (h : stockinfo_fetch info? isin ticker = some md) :
    ∃ si, md._stock_info = some si := by
  cases ticker with
  | none => exact Option.noConfusion h
  | some t =>
    cases info? with
    | none =>
      simp only [stockinfo_fetch] at h
      split at h
      · exact Option.noConfusion h
      · exact Option.noConfusion h
    | some info =>
      simp only [stockinfo_fetch] at h
      split at h
      · exact Option.noConfusion h
      · split at h
        · exact Option.noConfusion h
        · split at h
          · exact Option.noConfusion h
          · obtain rfl := Option.some.inj h
            exact ⟨_, rfl⟩

theorem lookup_to_dict_stock (md : ETFMetadata) (si : StockInfo)
    (hs : md._stock_info = some si) :
    List.lookup "quote_type" md.to_dict = some (PyVal.vstr si.quote_type)
    ∧ List.lookup "sector" md.to_dict = some (optStrVal si.sector)
    ∧ List.lookup "industry" md.to_dict = some (optStrVal si.industry)
    ∧ List.lookup "country" md.to_dict = some (optStrVal si.country)
    ∧ List.lookup "market_cap" md.to_dict = some (optStrVal si.market_cap)
    ∧ List.lookup "pe_ratio" md.to_dict = some (optStrVal si.pe_ratio)
    ∧ List.lookup "dividend_yield" md.to_dict
        = some (optStrVal si.dividend_yield) := by
  unfold ETFMetadata.to_dict
  rw [hs]
  refine ⟨?_, ?_, ?_, ?_, ?_, ?_, ?_⟩ <;> (rw [lookup_dictUpdate]; rfl)

/-- Claim C10: every record `StockInfoFetcher.fetch` produces carries the
seven equity attributes in its serialized dict, but deserializing that
dict yields the record with no `_stock_info` attribute at all (only the
dataclass fields survive); hence a cache hit returns the record stripped
of the equity attributes the originally saved record had. -/
theorem c10_equity_attributes_dropped (info? : Option YFInfo)
    (isin ticker : Option String) (md : ETFMetadata)
    (h : stockinfo_fetch info? isin ticker = some md) :
    ∃ si, md._stock_info = some si
      ∧ List.lookup "quote_type" md.to_dict = some (PyVal.vstr si.quote_type)
      ∧ List.lookup "sector" md.to_dict = some (optStrVal si.sector)
      ∧ List.lookup "industry" md.to_dict = some (optStrVal si.industry)
      ∧ List.lookup "country" md.to_dict = some (optStrVal si.country)
      ∧ List.lookup "market_cap" md.to_dict = some (optStrVal si.market_cap)
      ∧ List.lookup "pe_ratio" md.to_dict = some (optStrVal si.pe_ratio)
      ∧ List.lookup "dividend_yield" md.to_dict
          = some (optStrVal si.dividend_yield)
      ∧ ETFMetadata.from_dict md.to_dict = some { md with _stock_info := none }
      ∧ ({ md with _stock_info := none })._stock_info = none := by
  obtain ⟨si, hs⟩ := stockinfo_fetch_stock_info info? isin ticker md h
  have hl := lookup_to_dict_stock md si hs
  exact ⟨si, hs, hl.1, hl.2.1, hl.2.2.1, hl.2.2.2.1, hl.2.2.2.2.1,
    hl.2.2.2.2.2.1, hl.2.2.2.2.2.2, from_dict_to_dict md, rfl⟩

/-- Witness for C10: the concrete equity fetch for "AAPL". -/
theorem c10_witness :
    ∃ si, mdStockWit._stock_info = some si
      ∧ List.lookup "quote_type" mdStockWit.to_dict
          = some (PyVal.vstr si.quote_type)
      ∧ List.lookup "sector" mdStockWit.to_dict = some (optStrVal si.sector)
      ∧ List.lookup "industry" mdStockWit.to_dict
          = some (optStrVal si.industry)
      ∧ List.lookup "country" mdStockWit.to_dict = some (optStrVal si.country)
      ∧ List.lookup "market_cap" mdStockWit.to_dict
          = some (optStrVal si.market_cap)
      ∧ List.lookup "pe_ratio" mdStockWit.to_dict
          = some (optStrVal si.pe_ratio)
      ∧ List.lookup "dividend_yield" mdStockWit.to_dict
          = some (optStrVal si.dividend_yield)
      ∧ ETFMetadata.from_dict mdStockWit.to_dict
          = some { mdStockWit with _stock_info := none }
      ∧ ({ mdStockWit with _stock_info := none })._stock_info = none :=
  c10_equity_attributes_dropped (some yinfoWit) none (some "AAPL") mdStockWit
    (by decide)

-- ===== Claim C3 =====

/-- Counterexample for C3 as stated: `to_dict` does persist null fields —
on a record with only an `isin`, the serialized dict binds the key
"ticker" to null, refuting "null fields are not persisted". -/
theorem c3_counterexample :
    ¬ onlyNonNullPersisted { isin := "IE00BK5BQT80" } := fun h =>
  (h "ticker" PyVal.vnone rfl) rfl

/-- Claim C3 (amended): `to_dict` serializes every dataclass field (null
fields included, bound to null); deserializing `to_dict r` reproduces
every dataclass field of `r` exactly — in particular every non-null
field; and `from_dict` ignores any keys of its input that are not
`ETFMetadata` fields. -/
theorem c3_roundtrip_amended :
    (∀ m : ETFMetadata,
      ETFMetadata.from_dict m.to_dict = some { m with _stock_info := none })
    ∧ (∀ m : ETFMetadata, m._stock_info = none →
        m.to_dict.map Prod.fst = dataclassFields)
    ∧ (∀ d extra : Dict, (∀ kv ∈ extra, kv.1 ∉ dataclassFields) →
        ETFMetadata.from_dict (dictUpdate d extra) = ETFMetadata.from_dict d) :=
  ⟨from_dict_to_dict, to_dict_keys, from_dict_ignores_junk⟩

/-- Witness for C3 (amended): a concrete record serializes to exactly the
field keys, and concrete unknown-key entries are ignored by
deserialization. -/
theorem c3_witness :
    ({ isin := "IE00BK5BQT80" } : ETFMetadata).to_dict.map Prod.fst
        = dataclassFields
    ∧ ETFMetadata.from_dict (dictUpdate dWit extraWit)
        = ETFMetadata.from_dict dWit :=
  ⟨c3_roundtrip_amended.2.1 { isin := "IE00BK5BQT80" } rfl,
   c3_roundtrip_amended.2.2 dWit extraWit (by decide)⟩

-- ===== Claim C2 =====

theorem fresh_cond_iff (force mopen : Bool) (now expiry : ℤ) :
    (!force && (decide (now < expiry) || !mopen)) = true
      ↔ (force = false ∧ (now < expiry ∨ mopen = false)) := by
  cases force <;> cases mopen <;> simp

/-- Claim C2: a cached price entry is served (no upstream fetch) exactly
when `force_refresh` is false and either the time is before the entry's
expiry or the market is reported closed; serving leaves the record and
the cache unchanged; `force_refresh` always bypasses the cache; and for
an entry whose price was fetched at `T` with a 5-minute TTL
(expiry `T + 300` seconds), a query at `T+4min` with the market open is
served from cache unchanged, a query at `T+6min` with the market open
refetches, and a query at `T+6min` with the market closed does not. -/
theorem c2_price_cache_freshness (cache : List (String × PriceCacheEntry))
    (sym : String) (force : Bool) (now : ℤ) (mopen : Bool)
    (e : PriceCacheEntry) (fetched : PriceRecord) (ttl : ℤ)
    (hl : List.lookup sym cache = some e) :
    ((getPriceStep cache sym force now mopen fetched ttl).2.2 = false
        ↔ (force = false ∧ (now < e.expiry ∨ mopen = false)))
    ∧ ((getPriceStep cache sym force now mopen fetched ttl).2.2 = false →
        (getPriceStep cache sym force now mopen fetched ttl).1 = e.data
        ∧ (getPriceStep cache sym force now mopen fetched ttl).2.1 = cache)
    ∧ ((getPriceStep cache sym true now mopen fetched ttl).2.2 = true)
    ∧ (∀ T : ℤ, e.expiry = T + 300 →
        (getPriceStep cache sym false (T + 240) true fetched ttl).2.2 = false
        ∧ (getPriceStep cache sym false (T + 240) true fetched ttl).1 = e.data
        ∧ (getPriceStep cache sym false (T + 360) true fetched ttl).2.2 = true
        ∧ (getPriceStep cache sym false (T + 360) false fetched ttl).2.2
            = false) := by
  have hstep : ∀ (fo mo : Bool) (n : ℤ),
      getPriceStep cache sym fo n mo fetched ttl
        = if (!fo && priceCacheFresh e n mo) = true
            then (e.data, cache, false)
            else (fetched, priceCacheSet cache sym ⟨n + ttl, fetched⟩, true) := by
    intro fo mo n
    simp [getPriceStep, hl]
  refine ⟨?_, ?_, ?_, ?_⟩
  · rw [hstep]
    by_cases hc : (!force && priceCacheFresh e now mopen) = true
    · rw [if_pos hc]
      simpa using (fresh_cond_iff force mopen now e.expiry).mp
        (by simpa [priceCacheFresh] using hc)
    · rw [if_neg hc]
      simp only [Bool.true_eq_false, false_iff]
      intro hrhs
      exact hc (by
        simpa [priceCacheFresh] using
          (fresh_cond_iff force mopen now e.expiry).mpr hrhs)
  · rw [hstep]
    by_cases hc : (!force && priceCacheFresh e now mopen) = true
    · rw [if_pos hc]
      exact fun _ => ⟨rfl, rfl⟩
    · rw [if_neg hc]
      intro hfalse
      exact absurd hfalse (by simp)
  · rw [hstep]
    simp
  · intro T he
    have c1 : priceCacheFresh e (T + 240) true = true := by
      simp only [priceCacheFresh, he, Bool.not_true, Bool.or_false,
        decide_eq_true_eq]
      omega
    have c2 : priceCacheFresh e (T + 360) true = false := by
      simp only [priceCacheFresh, he, Bool.not_true, Bool.or_false,
        decide_eq_false_iff_not]
      omega
    have c3 : priceCacheFresh e (T + 360) false = true := by
      simp [priceCacheFresh]
    refine ⟨?_, ?_, ?_, ?_⟩
    · rw [hstep, if_pos (by simp [c1])]
    · rw [hstep, if_pos (by simp [c1])]
    · rw [hstep, if_neg (by simp [c2])]
    · rw [hstep, if_pos (by simp [c3])]

/-- Witness for C2: the concrete cached "GOOG" entry fetched at `T = 0`
with a 5-minute TTL. -/
theorem c2_witness :
    (getPriceStep priceCacheWit "GOOG" false (0 + 240) true priceFetchedWit
        300).2.2 = false
    ∧ (getPriceStep priceCacheWit "GOOG" false (0 + 240) true priceFetchedWit
        300).1 = priceEntryWit.data
    ∧ (getPriceStep priceCacheWit "GOOG" false (0 + 360) true priceFetchedWit
        300).2.2 = true
    ∧ (getPriceStep priceCacheWit "GOOG" false (0 + 360) false priceFetchedWit
        300).2.2 = false :=
  (c2_price_cache_freshness priceCacheWit "GOOG" false 0 true priceEntryWit
    priceFetchedWit 300 (by decide)).2.2.2 0 (by decide)

-- ===== Helper lemmas on the metadata cache gateway =====

theorem get_etf_metadata_eq (F : List Fetcher) (isin ticker : Option String)
    (db : Option Store) (skip : Bool) :
    get_etf_metadata F isin ticker db skip
      = if (!pyStrTruthy isin && !pyStrTruthy ticker) = true then ⟨none, db, 0⟩
        else
          match cacheHitDict db skip (cacheKey isin ticker) with
          | some d => ⟨ETFMetadata.from_dict d, db, 0⟩
          | none =>
            match (fetchLoop (normId isin) (normId ticker) F none).1, db with
            | some m, some st =>
              ⟨some m,
               some (storeSave st (cacheKey isin ticker) (normId ticker)
                 m.to_dict),
               (fetchLoop (normId isin) (normId ticker) F none).2⟩
            | r, _ => ⟨r, db, (fetchLoop (normId isin) (normId ticker) F none).2⟩ :=
  rfl

theorem cacheHit_after_save (st : Store) (k tk : Option String) (d : Dict)
    (hd : d ≠ []) :
    cacheHitDict (some (storeSave st k tk d)) false k = some d := by
  unfold cacheHitDict storeGet storeSave
  simp only [List.lookup]
  rw [show (k == k) = true by simp]
  simp [hd]

-- ===== Claim C5 =====

/-- Claim C5: when the gateway's cache misses and the fetch loop resolves
to no usable record, `get_etf_metadata` returns absent and the store is
untouched; any change to the store implies a usable record was returned;
and on a cache miss with a store present, a loop that produced a record
writes exactly that record's dict under the cache key. -/
theorem c5_failures_not_cached (F : List Fetcher) (isin ticker : Option String)
    (db : Option Store) (skip : Bool) :
    (cacheHitDict db skip (cacheKey isin ticker) = none →
      (fetchLoop (normId isin) (normId ticker) F none).1 = none →
      (get_etf_metadata F isin ticker db skip).result = none
      ∧ (get_etf_metadata F isin ticker db skip).db = db)
    ∧ ((get_etf_metadata F isin ticker db skip).db ≠ db →
        ∃ m, (get_etf_metadata F isin ticker db skip).result = some m)
    ∧ (∀ st m, db = some st →
        (pyStrTruthy isin || pyStrTruthy ticker) = true →
        cacheHitDict db skip (cacheKey isin ticker) = none →
        (fetchLoop (normId isin) (normId ticker) F none).1 = some m →
        (get_etf_metadata F isin ticker db skip).db
          = some (storeSave st (cacheKey isin ticker) (normId ticker)
              m.to_dict)) := by
  by_cases hg : (!pyStrTruthy isin && !pyStrTruthy ticker) = true
  · have he : get_etf_metadata F isin ticker db skip = ⟨none, db, 0⟩ := by
      rw [get_etf_metadata_eq, if_pos hg]
    refine ⟨fun _ _ => by rw [he]; exact ⟨rfl, rfl⟩,
      fun hne => absurd (by rw [he]) hne,
      fun st m hdb ht _ _ => ?_⟩
    exfalso
    revert hg ht
    cases pyStrTruthy isin <;> cases pyStrTruthy ticker <;> simp
  · cases hc : cacheHitDict db skip (cacheKey isin ticker) with
    | some d =>
      have he : get_etf_metadata F isin ticker db skip
          = ⟨ETFMetadata.from_dict d, db, 0⟩ := by
        rw [get_etf_metadata_eq, if_neg hg, hc]
      refine ⟨fun h1 _ => Option.noConfusion h1,
        fun hne => absurd (by rw [he]) hne,
        fun st m hdb ht h1 _ => Option.noConfusion h1⟩
    | none =>
      cases hp : (fetchLoop (normId isin) (normId ticker) F none).1 with
      | none =>
        have he : get_etf_metadata F isin ticker db skip
            = ⟨none, db, (fetchLoop (normId isin) (normId ticker) F none).2⟩ := by
          rw [get_etf_metadata_eq, if_neg hg, hc, hp]
        refine ⟨fun _ _ => by rw [he]; exact ⟨rfl, rfl⟩,
          fun hne => absurd (by rw [he]) hne,
          fun st m hdb ht _ hm => Option.noConfusion hm⟩
      | some m0 =>
        cases db with
        | none =>
          have he : get_etf_metadata F isin ticker none skip
              = ⟨some m0, none,
                 (fetchLoop (normId isin) (normId ticker) F none).2⟩ := by
            rw [get_etf_metadata_eq, if_neg hg, hc, hp]
          refine ⟨fun _ h2 => Option.noConfusion h2,
            fun hne => absurd (by rw [he]) hne,
            fun st m hdb _ _ _ => Option.noConfusion hdb⟩
        | some st0 =>
          have he : get_etf_metadata F isin ticker (some st0) skip
              = ⟨some m0,
                 some (storeSave st0 (cacheKey isin ticker) (normId ticker)
                   m0.to_dict),
                 (fetchLoop (normId isin) (normId ticker) F none).2⟩ := by
            rw [get_etf_metadata_eq, if_neg hg, hc, hp]
          refine ⟨fun _ h2 => Option.noConfusion h2,
            fun _ => ⟨m0, by rw [he]⟩,
            fun st m hdb ht _ hm => ?_⟩
          obtain rfl : st0 = st := Option.some.inj hdb
          obtain rfl : m0 = m := Option.some.inj hm
          rw [he]

/-- Witness for C5: with an empty store, a chain whose only fetcher
returns an absent record leaves the store untouched and returns absent,
while a chain producing `mWit` writes exactly its dict. -/
theorem c5_witness :
    ((get_etf_metadata [fetcherAbsent] (some "IE00TEST0001") none (some [])
        false).result = none
     ∧ (get_etf_metadata [fetcherAbsent] (some "IE00TEST0001") none (some [])
        false).db = some [])
    ∧ (get_etf_metadata [fetcherWit] (some "IE00TEST0001") none (some [])
        false).db
        = some (storeSave [] (cacheKey (some "IE00TEST0001") none)
            (normId none) mWit.to_dict) :=
  ⟨(c5_failures_not_cached [fetcherAbsent] (some "IE00TEST0001") none
      (some []) false).1 (by decide) (by decide),
   (c5_failures_not_cached [fetcherWit] (some "IE00TEST0001") none
      (some []) false).2.2 [] mWit rfl (by decide) (by decide) (by decide)⟩

-- ===== Claim C6 =====

/-- Claim C6: with a store present and no bypass, when a first
`get_etf_metadata` call returns a usable record, the second call with the
same identifiers is a pure cache hit: it makes no fetcher `fetch` call,
leaves the store unchanged, and returns the record deserialized from the
stored dict (which deserializes successfully). -/
theorem c6_second_call_is_cache_hit (F : List Fetcher)
    (isin ticker : Option String) (st : Store) (m : ETFMetadata)
    (h1 : (get_etf_metadata F isin ticker (some st) false).result = some m) :
    ∃ st1, (get_etf_metadata F isin ticker (some st) false).db = some st1
      ∧ (get_etf_metadata F isin ticker (some st1) false).fetchCalls = 0
      ∧ (get_etf_metadata F isin ticker (some st1) false).db = some st1
      ∧ ∃ d, cacheHitDict (some st1) false (cacheKey isin ticker) = some d
          ∧ (get_etf_metadata F isin ticker (some st1) false).result
              = ETFMetadata.from_dict d
          ∧ ∃ m2, ETFMetadata.from_dict d = some m2 := by
  by_cases hg : (!pyStrTruthy isin && !pyStrTruthy ticker) = true
  · rw [get_etf_metadata_eq, if_pos hg] at h1
    exact Option.noConfusion h1
  · cases hc : cacheHitDict (some st) false (cacheKey isin ticker) with
    | some d =>
      have he : get_etf_metadata F isin ticker (some st) false
          = ⟨ETFMetadata.from_dict d, some st, 0⟩ := by
        rw [get_etf_metadata_eq, if_neg hg, hc]
      rw [he] at h1
      exact ⟨st, by rw [he], by rw [he], by rw [he], d, hc, by rw [he],
        m, h1⟩
    | none =>
      cases hp : (fetchLoop (normId isin) (normId ticker) F none).1 with
      | none =>
        have he : get_etf_metadata F isin ticker (some st) false
            = ⟨none, some st,
               (fetchLoop (normId isin) (normId ticker) F none).2⟩ := by
          rw [get_etf_metadata_eq, if_neg hg, hc, hp]
        rw [he] at h1
        exact Option.noConfusion h1
      | some m0 =>
        have he : get_etf_metadata F isin ticker (some st) false
            = ⟨some m0,
               some (storeSave st (cacheKey isin ticker) (normId ticker)
                 m0.to_dict),
               (fetchLoop (normId isin) (normId ticker) F none).2⟩ := by
          rw [get_etf_metadata_eq, if_neg hg, hc, hp]
        have hhit : cacheHitDict
            (some (storeSave st (cacheKey isin ticker) (normId ticker)
              m0.to_dict)) false (cacheKey isin ticker)
            = some m0.to_dict :=
          cacheHit_after_save st (cacheKey isin ticker) (normId ticker)
            m0.to_dict (to_dict_ne_nil m0)
        have he2 : get_etf_metadata F isin ticker
            (some (storeSave st (cacheKey isin ticker) (normId ticker)
              m0.to_dict)) false
            = ⟨ETFMetadata.from_dict m0.to_dict,
               some (storeSave st (cacheKey isin ticker) (normId ticker)
                 m0.to_dict), 0⟩ := by
          rw [get_etf_metadata_eq, if_neg hg, hhit]
        exact ⟨storeSave st (cacheKey isin ticker) (normId ticker) m0.to_dict,
          by rw [he], by rw [he2], by rw [he2], m0.to_dict, hhit,
          by rw [he2], { m0 with _stock_info := none }, from_dict_to_dict m0⟩

/-- Witness for C6: the concrete one-fetcher chain producing `mWit` over
an empty store. -/
theorem c6_witness :
    ∃ st1, (get_etf_metadata [fetcherWit] (some "IE00TEST0001") none
        (some []) false).db = some st1
      ∧ (get_etf_metadata [fetcherWit] (some "IE00TEST0001") none
          (some st1) false).fetchCalls = 0
      ∧ (get_etf_metadata [fetcherWit] (some "IE00TEST0001") none
          (some st1) false).db = some st1
      ∧ ∃ d, cacheHitDict (some st1) false
            (cacheKey (some "IE00TEST0001") none) = some d
          ∧ (get_etf_metadata [fetcherWit] (some "IE00TEST0001") none
              (some st1) false).result = ETFMetadata.from_dict d
          ∧ ∃ m2, ETFMetadata.from_dict d = some m2 :=
  c6_second_call_is_cache_hit [fetcherWit] (some "IE00TEST0001") none [] mWit
    (by decide)
